import Mathlib

/-!
Shallow embedding of the scrape-and-reconcile pipeline
(`src/scraper.py`, `src/cache.py`, `src/config.py`, `src/schemas.py`,
`src/app.py`) of the product-catalog scraper.

Modelling choices:
* Python `float` prices are modelled as `ℚ`; the epsilon comparison
  `abs(a - b) > 1e-9` from `scraper.py` becomes `|a - b| > eps` with
  `eps = 1/10^9 : ℚ`.
* The in-memory cache (`cache.py`, a `Dict[str, float]`) and the
  title-indexed dictionary built from storage (`existing_dict` in
  `Scraper.scrape`) are modelled as functions `String → Option _`,
  with `Function.update` as dictionary assignment.
* I/O effects (storage save, notification) are modelled by the run's
  result value: a run that aborts with an error produces no
  `RunOutcome`, hence no saved set and no notification message.
-/

/-- `schemas.py`: `Product(BaseModel)` with `product_title : str`,
`product_price : float`, `path_to_image : str`. -/
structure Product where
  product_title : String
  product_price : ℚ
  path_to_image : String
deriving DecidableEq, Repr

/-- `cache.py`: `InMemoryCache` stores `{ product_title : price }`.
Modelled as the underlying dictionary. -/
def InMemoryCache : Type := String → Option ℚ

/-- `InMemoryCache.get_price`: `self.cache.get(product_title, None)`. -/
def InMemoryCache.get_price (c : InMemoryCache) (product_title : String) :
    Option ℚ := c product_title

/-- `InMemoryCache.update_price`: `self.cache[product_title] = product_price`. -/
def InMemoryCache.update_price (c : InMemoryCache) (product_title : String)
    (product_price : ℚ) : InMemoryCache :=
  Function.update c product_title (some product_price)

/-- The empty cache: `InMemoryCache.__init__` sets `self.cache = {}`. -/
def InMemoryCache.empty : InMemoryCache := fun _ => none

/-- The title-indexed view of storage:
`existing_dict = {prod.product_title: prod for prod in existing_products}`
(`scraper.py` line 35).  Later products with the same title overwrite
earlier ones, as in a Python dict comprehension. -/
def buildDict (l : List Product) : String → Option Product :=
  l.foldl (fun d p => Function.update d p.product_title (some p)) (fun _ => none)

/-- Epsilon used by `scraper.py` for price comparison: `1e-9`. -/
def eps : ℚ := 1 / 1000000000

/-- State threaded through the reconciliation loop of `Scraper.scrape`
(lines 49–76): `existing_dict`, `self.cache`, `updated_count`. -/
structure RecState where
  dict : String → Option Product
  cache : InMemoryCache
  updated : ℕ

/-- One iteration of the reconciliation loop of `Scraper.scrape`
(lines 51–76) for a single scraped `product`:

* cached price present and differing by more than `1e-9`: replace the
  dict entry, update the cache, increment `updated_count`;
* cached price present, within `1e-9`: no change;
* not cached, not in `existing_dict`: insert new product into the dict
  and cache, increment `updated_count`;
* not cached but stored: seed the cache with the stored price, then if
  the stored price differs from the scraped one by more than `1e-9`,
  replace the dict entry, re-set the cache, increment `updated_count`. -/
def reconcileStep (s : RecState) (product : Product) : RecState :=
  match s.cache.get_price product.product_title with
  | some cached_price =>
      if |cached_price - product.product_price| > eps then
        { dict := Function.update s.dict product.product_title (some product),
          cache := s.cache.update_price product.product_title product.product_price,
          updated := s.updated + 1 }
      else
        s
  | none =>
      match s.dict product.product_title with
      | none =>
          { dict := Function.update s.dict product.product_title (some product),
            cache := s.cache.update_price product.product_title product.product_price,
            updated := s.updated + 1 }
      | some stored =>
          let seeded : RecState :=
            { s with cache :=
                (s.cache.update_price product.product_title stored.product_price) }
          if |stored.product_price - product.product_price| > eps then
            { dict := Function.update seeded.dict product.product_title (some product),
              cache := seeded.cache.update_price product.product_title
                product.product_price,
              updated := seeded.updated + 1 }
          else
            seeded

/-- The full reconciliation pass of `Scraper.scrape` (lines 49–76):
fold the loop body over the accumulated `scraped_products`, starting
from `updated_count = 0`. -/
def reconcile (dict0 : String → Option Product) (cache0 : InMemoryCache)
    (scraped : List Product) : RecState :=
  scraped.foldl reconcileStep { dict := dict0, cache := cache0, updated := 0 }

/-- Numeric helper: prices `0` and `1` differ by more than `eps`. -/
lemma abs_zero_one_gt : |(0:ℚ) - 1| > eps := by rw [eps]; norm_num

/-- Numeric helper: prices `1` and `0` differ by more than `eps`. -/
lemma abs_one_zero_gt : |(1:ℚ) - 0| > eps := by rw [eps]; norm_num

/-- Numeric helper: a price does not differ from itself by more than `eps`. -/
lemma abs_self_not_gt (q : ℚ) : ¬ (|q - q| > eps) := by
  rw [eps]; simp

/-- A transient page-fetch failure (`requests.RequestException` in
`scraper.py`), abstracted to its message. -/
structure FetchError where
  msg : String
deriving DecidableEq, Repr

/-- Observable outcome of `Scraper._scrape_page_with_retry` (`scraper.py`
lines 86–105): the returned products or the re-raised exception, the
number of attempts actually made, and the list of durations passed to
`time.sleep` (one `retry_backoff` entry per failed non-final attempt). -/
structure RetryResult where
  result : Except FetchError (List Product)
  attemptsMade : ℕ
  sleeps : List ℚ
deriving Repr

/-- The retry loop `for attempt in range(attempts)` of
`Scraper._scrape_page_with_retry`, parameterised by an oracle giving each
attempt's outcome (`self._scrape_single_page(page)` succeeding or raising).
`start` is the current attempt index, `remaining` the attempts left.
With `remaining = 0` the loop body never runs and the function falls
through to `return []` (`scraper.py` line 105). -/
def retryFrom (outcome : ℕ → Except FetchError (List Product)) (backoff : ℚ) :
    ℕ → ℕ → RetryResult
  | _, 0 => ⟨Except.ok [], 0, []⟩
  | start, remaining + 1 =>
    match outcome start with
    | Except.ok ps => ⟨Except.ok ps, 1, []⟩
    | Except.error e =>
      if remaining = 0 then
        ⟨Except.error e, 1, []⟩
      else
        let rest := retryFrom outcome backoff (start + 1) remaining
        ⟨rest.result, rest.attemptsMade + 1, backoff :: rest.sleeps⟩

/-- `Scraper._scrape_page_with_retry` for one page: run the retry loop
from attempt 0 with `attempts = config.retry_attempts` and
`backoff = config.retry_backoff`. -/
def retryPage (outcome : ℕ → Except FetchError (List Product)) (backoff : ℚ)
    (attempts : ℕ) : RetryResult :=
  retryFrom outcome backoff 0 attempts

/-- `config.py`: `ScraperConfig` with `limit_pages : Optional[PositiveInt]`,
`proxy : Optional[str]`, `retry_attempts : int`, `retry_backoff : int`.
`limit_pages` keeps its `Option` type: pydantic accepts an explicit `None`
(the field default `None or 2` only applies when the field is omitted). -/
structure ScraperConfig where
  limit_pages : Option ℕ
  proxy : Option String
  retry_attempts : ℕ
  retry_backoff : ℚ

/-- Errors that abort `Scraper.scrape`: the `TypeError` raised by
`range(1, None + 1)` when `limit_pages` is `None`, or a `PageFetchError`
propagated from the retry loop. -/
inductive RunError where
  | typeError
  | fetch (e : FetchError)
deriving DecidableEq, Repr

/-- The externally observable effects of a successful `Scraper.scrape`
run: the merged set passed to `storage.save`, the post-run cache, the
`updated_count`, and the message passed to `notifier.send`.  A run that
raises produces no `RunOutcome`, modelling that neither `storage.save`
nor `notifier.send` is called. -/
structure RunOutcome where
  saved : String → Option Product
  cache : InMemoryCache
  updated : ℕ
  message : String

/-- The page loop of `Scraper.scrape` (lines 43–46): for each page in
order call `_scrape_page_with_retry` and extend `scraped_products`;
a raised `PageFetchError` propagates immediately, abandoning the rest. -/
def collectPages (attemptOracle : ℕ → ℕ → Except FetchError (List Product))
    (cfg : ScraperConfig) : List ℕ → Except FetchError (List Product)
  | [] => Except.ok []
  | p :: rest =>
    match (retryPage (attemptOracle p) cfg.retry_backoff cfg.retry_attempts).result with
    | Except.error e => Except.error e
    | Except.ok ps =>
      match collectPages attemptOracle cfg rest with
      | Except.error e => Except.error e
      | Except.ok qs => Except.ok (ps ++ qs)

/-- `Scraper.scrape` (`scraper.py` lines 24–84): load existing products
(given as input `existing`), build `existing_dict`, compute the page range
`range(1, pages_to_scrape + 1)` — raising `TypeError` when `limit_pages`
is `None` —, scrape all pages with retry, reconcile, then save the merged
set and send the summary notification.  `attemptOracle page attempt` gives
the outcome of each individual `_scrape_single_page` call. -/
def Scraper.scrape (attemptOracle : ℕ → ℕ → Except FetchError (List Product))
    (cfg : ScraperConfig) (existing : List Product) (cache0 : InMemoryCache) :
    Except RunError RunOutcome :=
  let existing_dict := buildDict existing
  match cfg.limit_pages with
  | none => Except.error RunError.typeError
  | some pages_to_scrape =>
    match collectPages attemptOracle cfg (List.range' 1 pages_to_scrape) with
    | Except.error e => Except.error (RunError.fetch e)
    | Except.ok scraped_products =>
      let final := reconcile existing_dict cache0 scraped_products
      Except.ok
        { saved := final.dict
          cache := final.cache
          updated := final.updated
          message := "Scraped " ++ toString scraped_products.length ++
            " products. Updated " ++ toString final.updated ++ " in DB." }

example :
    (reconcile (fun _ => none) InMemoryCache.empty
      [⟨"a", 5, ""⟩]).updated = 1 := by
  simp [reconcile, reconcileStep, InMemoryCache.get_price, InMemoryCache.update_price,
    InMemoryCache.empty]

example :
    (reconcile (fun _ => none) InMemoryCache.empty
      [⟨"a", 0, ""⟩, ⟨"a", 1, ""⟩]).updated = 2 := by
  simp [reconcile, reconcileStep, InMemoryCache.get_price, InMemoryCache.update_price,
    InMemoryCache.empty, Function.update_same]
  norm_num [eps]

/-- Model of a parsed HTML tree, the result of the parse capability
(`BeautifulSoup(response_text, "lxml")`).  An element carries its tag
name, optional `id` attribute, class list, remaining attributes, and
children; a text node carries its string. -/
inductive Html where
  | elem (tag : String) (idAttr : Option String) (classes : List String)
      (attrs : List (String × String)) (children : List Html)
  | text (s : String)

/-- The children of a node (text nodes have none). -/
def Html.children : Html → List Html
  | .elem _ _ _ _ cs => cs
  | .text _ => []

mutual
/-- Preorder (document-order) list of a node and all its descendants. -/
def nodeList : Html → List Html
  | .text s => [.text s]
  | .elem t i c a cs => .elem t i c a cs :: nodeListOf cs

/-- Preorder node list of a forest, left to right. -/
def nodeListOf : List Html → List Html
  | [] => []
  | h :: hs => nodeList h ++ nodeListOf hs
end

/-- Document-order list of the strict descendants of a node, the search
space of BeautifulSoup's `find`/`find_all` on a tag. -/
def descendants (h : Html) : List Html := nodeListOf h.children

/-- Does this element carry `id=i`? -/
def hasId (i : String) : Html → Bool
  | .elem _ (some j) _ _ _ => j == i
  | _ => false

/-- Does this element have the given tag name? -/
def hasTag (t : String) : Html → Bool
  | .elem tag _ _ _ _ => tag == t
  | .text _ => false

/-- Does this element carry the given class? -/
def hasClass (c : String) : Html → Bool
  | .elem _ _ classes _ _ => classes.contains c
  | .text _ => false

/-- Tag and class together, e.g. `find("img", class_=...)`. -/
def hasTagClass (t c : String) (h : Html) : Bool := hasTag t h && hasClass c h

/-- BeautifulSoup `node.find(...)`: first strict descendant in document
order satisfying the predicate. -/
def findIn (p : Html → Bool) (h : Html) : Option Html := (descendants h).find? p

mutual
/-- The parent (within the given subtree) of the first descendant in
document order satisfying the predicate; models BeautifulSoup's
`found_tag.parent` for a tag located by `find`. -/
def parentOfMatch (p : Html → Bool) : Html → Option Html
  | .text _ => none
  | .elem t i c a cs => parentScan p (.elem t i c a cs) cs

/-- Scan a child list in order: a matching child's parent is `par`;
otherwise recurse into the child before moving to the next sibling. -/
def parentScan (p : Html → Bool) (par : Html) : List Html → Option Html
  | [] => none
  | c :: cs =>
    if p c then some par
    else
      match parentOfMatch p c with
      | some r => some r
      | none => parentScan p par cs
end

/-- `tag.get(key, default)`: attribute lookup with a default. -/
def getAttrD (h : Html) (k d : String) : String :=
  match h with
  | .elem _ _ _ attrs _ =>
    match attrs.lookup k with
    | some v => v
    | none => d
  | .text _ => d

mutual
/-- The text fragments of a node in document order. -/
def textFragments : Html → List String
  | .text s => [s]
  | .elem _ _ _ _ cs => textFragmentsOf cs

/-- Text fragments of a forest. -/
def textFragmentsOf : List Html → List String
  | [] => []
  | h :: hs => textFragments h ++ textFragmentsOf hs
end

/-- `get_text(strip=True)`: concatenate the stripped text fragments. -/
def getTextStrip (h : Html) : String :=
  String.join ((textFragments h).map String.trim)

/-- Numeric value of a digit string. -/
def natOfDigits (ds : List Char) : ℕ :=
  ds.foldl (fun n c => 10 * n + (c.toNat - Char.toNat '0')) 0

/-- The regex search `re.search(r"(\d+(?:\.\d+)?)", price_text)` followed
by `float(...)`: the first maximal run of digits, optionally extended by a
dot and a non-empty digit run, read as a (here: exact rational) number. -/
def firstNumber : List Char → Option ℚ
  | [] => none
  | c :: rest =>
    if c.isDigit then
      let ip := (c :: rest).takeWhile (fun d => d.isDigit)
      let after := (c :: rest).dropWhile (fun d => d.isDigit)
      match after with
      | '.' :: r2 =>
        let fp := r2.takeWhile (fun d => d.isDigit)
        if fp.isEmpty then some (natOfDigits ip : ℚ)
        else some ((natOfDigits ip : ℚ) + (natOfDigits fp : ℚ) / (10 : ℚ) ^ fp.length)
      | _ => some (natOfDigits ip : ℚ)
    else firstNumber rest

/-- `re.search` over a string. -/
def searchNumber (s : String) : Option ℚ := firstNumber s.data

/-- The one structural fault modelled inside the extraction `try` block:
`price_span.parent` being absent would make `price_span.parent.get_text`
raise `AttributeError`. -/
inductive ExtractError where
  | attributeError
deriving DecidableEq, Repr

/-- Body of the per-item extraction in
`Scraper._extract_products_from_html` (`scraper.py` lines 179–221):
skip the item when `product-inner` is missing, read the lazy-load image
attribute, the `h2` title and the price next to the currency-symbol span,
and emit a `Product` only when the title is non-empty. -/
def extractItemE (item : Html) : Except ExtractError (Option Product) :=
  match findIn (hasClass "product-inner") item with
  | none => Except.ok none
  | some product_inner =>
    let image_url :=
      match findIn (hasClass "mf-product-thumbnail") product_inner with
      | none => ""
      | some thumbnail =>
        match findIn (hasTagClass "img" "attachment-woocommerce_thumbnail") thumbnail with
        | none => ""
        | some img_tag => getAttrD img_tag "data-lazy-src" ""
    match findIn (hasClass "mf-product-details") product_inner with
    | none => Except.ok none
    | some details =>
      let title :=
        match findIn (hasTag "h2") details with
        | none => ""
        | some h2_tag => getTextStrip h2_tag
      match findIn (hasTagClass "span" "woocommerce-Price-currencySymbol") details with
      | none =>
        if title = "" then Except.ok none
        else Except.ok (some ⟨title, 0, image_url⟩)
      | some _ =>
        match parentOfMatch (hasTagClass "span" "woocommerce-Price-currencySymbol") details with
        | none => Except.error ExtractError.attributeError
        | some par =>
          let price :=
            match searchNumber (getTextStrip par) with
            | none => 0
            | some q => q
          if title = "" then Except.ok none
          else Except.ok (some ⟨title, price, image_url⟩)

/-- The `try` body of `Scraper._extract_products_from_html`: find the
container with id `mf-shop-content` (absence yields the empty list, not
an error), then extract each `li` item in document order. -/
def extractBodyE (root : Html) : Except ExtractError (List Product) :=
  match (nodeList root).find? (hasId "mf-shop-content") with
  | none => Except.ok []
  | some container =>
    ((descendants container).filter (hasTag "li")).filterMapM extractItemE

/-- `Scraper._extract_products_from_html`: the `try`/`except` wrapper
degrading any extraction error to an empty result for the page. -/
def extract_products_from_html (root : Html) : List Product :=
  match extractBodyE root with
  | Except.ok l => l
  | Except.error _ => []

/-! ### Reconciliation lemmas -/

/-- Processing a product touches the cache only at that product's title. -/
lemma reconcileStep_cache_frame (s : RecState) (p : Product) (T : String)
    (h : T ≠ p.product_title) :
    (reconcileStep s p).cache T = s.cache T := by
  unfold reconcileStep InMemoryCache.get_price InMemoryCache.update_price
  cases hC : s.cache p.product_title with
  | some c =>
    by_cases hd : |c - p.product_price| > eps <;>
      simp [hd, Function.update_noteq h]
  | none =>
    cases hD : s.dict p.product_title with
    | none => simp [Function.update_noteq h]
    | some stored =>
      by_cases hd : |stored.product_price - p.product_price| > eps <;>
        simp [hd, Function.update_noteq h]

/-- Processing a product touches the dictionary only at that product's title. -/
lemma reconcileStep_dict_frame (s : RecState) (p : Product) (T : String)
    (h : T ≠ p.product_title) :
    (reconcileStep s p).dict T = s.dict T := by
  unfold reconcileStep InMemoryCache.get_price InMemoryCache.update_price
  cases hC : s.cache p.product_title with
  | some c =>
    by_cases hd : |c - p.product_price| > eps <;>
      simp [hd, Function.update_noteq h]
  | none =>
    cases hD : s.dict p.product_title with
    | none => simp [Function.update_noteq h]
    | some stored =>
      by_cases hd : |stored.product_price - p.product_price| > eps <;>
        simp [hd, Function.update_noteq h]

/-- Processing a product never decreases `updated_count`. -/
lemma reconcileStep_updated_mono (s : RecState) (p : Product) :
    s.updated ≤ (reconcileStep s p).updated := by
  unfold reconcileStep InMemoryCache.get_price InMemoryCache.update_price
  cases hC : s.cache p.product_title with
  | some c =>
    by_cases hd : |c - p.product_price| > eps <;> simp [hd]
  | none =>
    cases hD : s.dict p.product_title with
    | none => simp
    | some stored =>
      by_cases hd : |stored.product_price - p.product_price| > eps <;> simp [hd]

/-- After processing a product, the cache holds a price for its title,
and that price is within `eps` of the product's scraped price. -/
lemma reconcileStep_cache_close (s : RecState) (p : Product) :
    ∃ c, (reconcileStep s p).cache p.product_title = some c ∧
      ¬ (|c - p.product_price| > eps) := by
  unfold reconcileStep InMemoryCache.get_price InMemoryCache.update_price
  cases hC : s.cache p.product_title with
  | some c =>
    by_cases hd : |c - p.product_price| > eps
    · exact ⟨p.product_price, by simp [hd, Function.update_same],
        abs_self_not_gt _⟩
    · exact ⟨c, by simp [hd, hC], hd⟩
  | none =>
    cases hD : s.dict p.product_title with
    | none =>
      exact ⟨p.product_price, by simp [Function.update_same], abs_self_not_gt _⟩
    | some stored =>
      by_cases hd : |stored.product_price - p.product_price| > eps
      · exact ⟨p.product_price, by simp [hd, Function.update_same],
          abs_self_not_gt _⟩
      · exact ⟨stored.product_price, by simp [hd, Function.update_same], hd⟩

/-- A product whose title is cached with a price within `eps` of its
scraped price leaves the state completely unchanged. -/
lemma reconcileStep_unchanged (s : RecState) (p : Product) (c : ℚ)
    (hC : s.cache p.product_title = some c)
    (hd : ¬ (|c - p.product_price| > eps)) :
    reconcileStep s p = s := by
  unfold reconcileStep InMemoryCache.get_price
  rw [hC]
  simp [hd]

/-- Cache entries survive a step (possibly with a new value). -/
lemma reconcileStep_cache_isSome (s : RecState) (p : Product) (T : String)
    (h : (s.cache T).isSome) :
    ((reconcileStep s p).cache T).isSome := by
  by_cases hT : T = p.product_title
  · subst hT
    obtain ⟨c, hc, -⟩ := reconcileStep_cache_close s p
    simp [hc]
  · rw [reconcileStep_cache_frame s p T hT]; exact h

/-- Dictionary entries survive a step (possibly replaced, never removed). -/
lemma reconcileStep_dict_isSome (s : RecState) (p : Product) (T : String)
    (h : (s.dict T).isSome) :
    ((reconcileStep s p).dict T).isSome := by
  by_cases hT : T = p.product_title
  · subst hT
    unfold reconcileStep InMemoryCache.get_price InMemoryCache.update_price
    cases hC : s.cache p.product_title with
    | some c =>
      by_cases hd : |c - p.product_price| > eps <;>
        simp [hd, Function.update_same, h]
    | none =>
      cases hD : s.dict p.product_title with
      | none => simp [Function.update_same]
      | some stored =>
        by_cases hd : |stored.product_price - p.product_price| > eps <;>
          simp [hd, Function.update_same, hD]
  · rw [reconcileStep_dict_frame s p T hT]; exact h

/-- Agreement invariant between cache and merged dictionary: every cached
title has a dictionary record whose price equals the cached price. -/
def cacheDictAgree (s : RecState) : Prop :=
  ∀ T c, s.cache T = some c → ∃ r, s.dict T = some r ∧ r.product_price = c

/-- One reconciliation step preserves cache/dictionary agreement. -/
lemma reconcileStep_preserves_agree (s : RecState) (p : Product)
    (h : cacheDictAgree s) : cacheDictAgree (reconcileStep s p) := by
  intro T c hc
  by_cases hT : T = p.product_title
  · subst hT
    revert hc
    unfold reconcileStep InMemoryCache.get_price InMemoryCache.update_price
    cases hC : s.cache p.product_title with
    | some c0 =>
      by_cases hd : |c0 - p.product_price| > eps
      · simp only [hd, if_true, Function.update_same, Option.some.injEq]
        rintro rfl
        exact ⟨p, by simp [Function.update_same]⟩
      · simp only [hd, if_false]
        intro hc
        exact h _ _ hc
    | none =>
      cases hD : s.dict p.product_title with
      | none =>
        simp only [Function.update_same, Option.some.injEq]
        rintro rfl
        exact ⟨p, by simp [Function.update_same]⟩
      | some stored =>
        by_cases hd : |stored.product_price - p.product_price| > eps
        · simp only [hd, if_true, Function.update_same, Option.some.injEq]
          rintro rfl
          exact ⟨p, by simp [Function.update_same]⟩
        · simp only [hd, if_false, Function.update_same, Option.some.injEq]
          rintro rfl
          exact ⟨stored, by simp [hD]⟩
  · rw [reconcileStep_cache_frame s p T hT] at hc
    obtain ⟨r, hr, hpr⟩ := h T c hc
    exact ⟨r, by rw [reconcileStep_dict_frame s p T hT]; exact hr, hpr⟩

/-- The reconciliation fold preserves cache/dictionary agreement. -/
lemma foldl_preserves_agree :
    ∀ (l : List Product) (s : RecState), cacheDictAgree s →
      cacheDictAgree (l.foldl reconcileStep s)
  | [], _, h => h
  | p :: rest, s, h =>
    foldl_preserves_agree rest (reconcileStep s p)
      (reconcileStep_preserves_agree s p h)

/-- A cache entry present before the fold is still present after it. -/
lemma foldl_cache_isSome :
    ∀ (l : List Product) (s : RecState) (T : String),
      (s.cache T).isSome → ((l.foldl reconcileStep s).cache T).isSome
  | [], _, _, h => h
  | p :: rest, s, T, h =>
    foldl_cache_isSome rest (reconcileStep s p) T
      (reconcileStep_cache_isSome s p T h)

/-- A dictionary entry present before the fold is still present after it. -/
lemma foldl_dict_isSome :
    ∀ (l : List Product) (s : RecState) (T : String),
      (s.dict T).isSome → ((l.foldl reconcileStep s).dict T).isSome
  | [], _, _, h => h
  | p :: rest, s, T, h =>
    foldl_dict_isSome rest (reconcileStep s p) T
      (reconcileStep_dict_isSome s p T h)

/-- Every scraped product's title is cached once the fold has passed it. -/
lemma foldl_cache_some_of_mem :
    ∀ (l : List Product) (s : RecState) (p : Product), p ∈ l →
      ((l.foldl reconcileStep s).cache p.product_title).isSome := by
  intro l
  induction l with
  | nil => intro s p hp; cases hp
  | cons q rest ih =>
    intro s p hp
    rw [List.foldl_cons]
    rcases List.mem_cons.mp hp with rfl | hp
    · apply foldl_cache_isSome
      obtain ⟨c, hc, -⟩ := reconcileStep_cache_close s p
      rw [hc]; rfl
    · exact ih (reconcileStep s q) p hp

/-- **C1**: within one run starting with an empty cache, after the
reconciliation pass over the accumulated scraped products completes, the
cache and the final persisted set agree: for every title of a scraped
product, the cache holds a price for that title and it equals the price of
that title's record in the merged set that is saved (`final.dict` is
exactly the set passed to `storage.save` in `Scraper.scrape`). -/
theorem C1_cache_agrees_with_saved (dict0 : String → Option Product)
    (scraped : List Product) (p : Product) (hp : p ∈ scraped) :
    ∃ (c : ℚ) (r : Product),
      (reconcile dict0 InMemoryCache.empty scraped).cache p.product_title = some c ∧
      (reconcile dict0 InMemoryCache.empty scraped).dict p.product_title = some r ∧
      r.product_price = c := by
  have hagree : cacheDictAgree (reconcile dict0 InMemoryCache.empty scraped) := by
    unfold reconcile
    apply foldl_preserves_agree
    intro T c hc
    exact absurd hc (by simp [InMemoryCache.empty])
  have hsome : ((reconcile dict0 InMemoryCache.empty scraped).cache
      p.product_title).isSome := by
    unfold reconcile
    exact foldl_cache_some_of_mem scraped _ p hp
  obtain ⟨c, hc⟩ := Option.isSome_iff_exists.mp hsome
  obtain ⟨r, hr, hpr⟩ := hagree _ _ hc
  exact ⟨c, r, hc, hr, hpr⟩

/-- Witness for `C1_cache_agrees_with_saved` at a concrete input. -/
theorem C1_cache_agrees_with_saved_witness :
    (⟨"a", 5, ""⟩ : Product) ∈ [(⟨"a", 5, ""⟩ : Product)] ∧
    ∃ (c : ℚ) (r : Product),
      (reconcile (fun _ => none) InMemoryCache.empty
        [⟨"a", 5, ""⟩]).cache "a" = some c ∧
      (reconcile (fun _ => none) InMemoryCache.empty
        [⟨"a", 5, ""⟩]).dict "a" = some r ∧
      r.product_price = c :=
  ⟨List.mem_singleton.mpr rfl,
    C1_cache_agrees_with_saved (fun _ => none) [⟨"a", 5, ""⟩] ⟨"a", 5, ""⟩
      (List.mem_singleton.mpr rfl)⟩

/-- **C4**: for a scraped product whose title already has a cached price,
a difference of more than `1e-9` replaces the merged-set entry, updates
the cache to the scraped price and increments `updated_count`; a
difference of at most `1e-9` changes nothing. -/
theorem C4_cached_price_comparison (s : RecState) (p : Product) (c : ℚ)
    (hC : s.cache.get_price p.product_title = some c) :
    (|c - p.product_price| > eps →
      reconcileStep s p =
        { dict := Function.update s.dict p.product_title (some p),
          cache := s.cache.update_price p.product_title p.product_price,
          updated := s.updated + 1 }) ∧
    (¬ (|c - p.product_price| > eps) → reconcileStep s p = s) := by
  constructor <;> intro hd <;>
    (unfold reconcileStep; rw [hC]; simp [hd])

/-- Witness for `C4_cached_price_comparison` at a concrete input: the
cache holds price `0` for title `"a"` and the scraped price is `1`. -/
theorem C4_cached_price_comparison_witness :
    ((RecState.mk (fun _ => none) (InMemoryCache.empty.update_price "a" 0)
        0).cache.get_price "a" = some 0) ∧
    (|(0:ℚ) - 1| > eps) ∧
    reconcileStep
        (RecState.mk (fun _ => none) (InMemoryCache.empty.update_price "a" 0) 0)
        ⟨"a", 1, ""⟩ =
      { dict := Function.update (fun _ => none) "a" (some ⟨"a", 1, ""⟩),
        cache := (InMemoryCache.empty.update_price "a" 0).update_price "a" 1,
        updated := 0 + 1 } :=
  ⟨by simp [InMemoryCache.get_price, InMemoryCache.update_price,
      Function.update_same],
    abs_zero_one_gt,
    (C4_cached_price_comparison
      (RecState.mk (fun _ => none) (InMemoryCache.empty.update_price "a" 0) 0)
      ⟨"a", 1, ""⟩ 0
      (by simp [InMemoryCache.get_price, InMemoryCache.update_price,
        Function.update_same])).1 abs_zero_one_gt⟩

/-- **C5**: a scraped product whose title is absent from the cache but
stored with a price within `1e-9` of the scraped price only seeds the
cache with the stored price; `updated_count` and the merged set are
untouched (the original stored record stays). -/
theorem C5_seed_cache_no_update (s : RecState) (p stored : Product)
    (hC : s.cache.get_price p.product_title = none)
    (hD : s.dict p.product_title = some stored)
    (hd : ¬ (|stored.product_price - p.product_price| > eps)) :
    (reconcileStep s p).cache =
      s.cache.update_price p.product_title stored.product_price ∧
    (reconcileStep s p).dict = s.dict ∧
    (reconcileStep s p).updated = s.updated := by
  unfold reconcileStep
  rw [hC, hD]
  simp [hd]

/-- Witness for `C5_seed_cache_no_update`: title `"a"` stored at price `5`,
not cached, re-scraped at price `5`. -/
theorem C5_seed_cache_no_update_witness :
    ((RecState.mk (Function.update (fun _ => none) "a" (some ⟨"a", 5, ""⟩))
        InMemoryCache.empty 0).cache.get_price "a" = none) ∧
    ((RecState.mk (Function.update (fun _ => none) "a" (some ⟨"a", 5, ""⟩))
        InMemoryCache.empty 0).dict "a" = some ⟨"a", 5, ""⟩) ∧
    (¬ (|(5:ℚ) - (5:ℚ)| > eps)) ∧
    ((reconcileStep
        (RecState.mk (Function.update (fun _ => none) "a" (some ⟨"a", 5, ""⟩))
          InMemoryCache.empty 0) ⟨"a", 5, ""⟩).cache =
      InMemoryCache.empty.update_price "a" 5 ∧
    (reconcileStep
        (RecState.mk (Function.update (fun _ => none) "a" (some ⟨"a", 5, ""⟩))
          InMemoryCache.empty 0) ⟨"a", 5, ""⟩).dict =
      Function.update (fun _ => none) "a" (some ⟨"a", 5, ""⟩) ∧
    (reconcileStep
        (RecState.mk (Function.update (fun _ => none) "a" (some ⟨"a", 5, ""⟩))
          InMemoryCache.empty 0) ⟨"a", 5, ""⟩).updated = 0) :=
  ⟨by simp [InMemoryCache.get_price, InMemoryCache.empty],
    by simp [Function.update_same],
    abs_self_not_gt 5,
    C5_seed_cache_no_update
      (RecState.mk (Function.update (fun _ => none) "a" (some ⟨"a", 5, ""⟩))
        InMemoryCache.empty 0) ⟨"a", 5, ""⟩ ⟨"a", 5, ""⟩
      (by simp [InMemoryCache.get_price, InMemoryCache.empty])
      (by simp [Function.update_same])
      (abs_self_not_gt 5)⟩

/-- **C6**: reconciliation never deletes entries — every title present in
the existing record set is still present in the final merged set, for any
cache and scraped list. -/
theorem C6_no_deletion (dict0 : String → Option Product)
    (cache0 : InMemoryCache) (scraped : List Product) (T : String)
    (r : Product) (h : dict0 T = some r) :
    ∃ r', (reconcile dict0 cache0 scraped).dict T = some r' := by
  apply Option.isSome_iff_exists.mp
  unfold reconcile
  apply foldl_dict_isSome
  show (dict0 T).isSome
  rw [h]; rfl

/-- Witness for `C6_no_deletion`: a stored title `"x"` survives a scrape
that only returns a different title `"y"`. -/
theorem C6_no_deletion_witness :
    (Function.update (fun _ => none) "x" (some (⟨"x", 5, ""⟩ : Product)) "x" =
      some (⟨"x", 5, ""⟩ : Product)) ∧
    ∃ r', (reconcile
        (Function.update (fun _ => none) "x" (some ⟨"x", 5, ""⟩))
        InMemoryCache.empty [⟨"y", 1, ""⟩]).dict "x" = some r' :=
  ⟨by simp [Function.update_same],
    C6_no_deletion
      (Function.update (fun _ => none) "x" (some ⟨"x", 5, ""⟩))
      InMemoryCache.empty [⟨"y", 1, ""⟩] "x" ⟨"x", 5, ""⟩
      (by simp [Function.update_same])⟩

/-- A title scraped by none of the products in `l` keeps its cache entry
through the fold. -/
lemma foldl_cache_frame :
    ∀ (l : List Product) (s : RecState) (T : String),
      T ∉ l.map Product.product_title →
      ((l.foldl reconcileStep s).cache T = s.cache T)
  | [], _, _, _ => rfl
  | p :: rest, s, T, h => by
    rw [List.foldl_cons]
    have h1 : T ∉ rest.map Product.product_title := by
      intro hmem; exact h (by simp [hmem])
    have h2 : T ≠ p.product_title := by
      intro heq; exact h (by simp [heq])
    rw [foldl_cache_frame rest _ T h1, reconcileStep_cache_frame s p T h2]

/-- After a fold over products with pairwise distinct titles, each
product's title is cached with a price within `eps` of its scraped
price. -/
lemma foldl_cache_close_of_nodup :
    ∀ (l : List Product) (s : RecState),
      (l.map Product.product_title).Nodup →
      ∀ p ∈ l, ∃ c, (l.foldl reconcileStep s).cache p.product_title = some c ∧
        ¬ (|c - p.product_price| > eps) := by
  intro l
  induction l with
  | nil => intro s _ p hp; cases hp
  | cons q rest ih =>
    intro s hnd p hp
    have hq : q.product_title ∉ rest.map Product.product_title :=
      (List.nodup_cons.mp (by simpa using hnd)).1
    have hrest : (rest.map Product.product_title).Nodup :=
      (List.nodup_cons.mp (by simpa using hnd)).2
    rw [List.foldl_cons]
    rcases List.mem_cons.mp hp with rfl | hp
    · obtain ⟨c, hc, hcl⟩ := reconcileStep_cache_close s p
      exact ⟨c, by rw [foldl_cache_frame rest _ _ hq]; exact hc, hcl⟩
    · exact ih (reconcileStep s q) hrest p hp

/-- If every product of `l` already has a cached price within `eps` of
its scraped price, the fold is the identity. -/
lemma foldl_id_of_close :
    ∀ (l : List Product) (s : RecState),
      (∀ p ∈ l, ∃ c, s.cache p.product_title = some c ∧
        ¬ (|c - p.product_price| > eps)) →
      l.foldl reconcileStep s = s := by
  intro l
  induction l with
  | nil => intro s _; rfl
  | cons q rest ih =>
    intro s h
    obtain ⟨c, hc, hcl⟩ := h q (List.mem_cons_self q rest)
    rw [List.foldl_cons, reconcileStep_unchanged s q c hc hcl]
    exact ih s fun p hp => h p (List.mem_cons_of_mem q hp)

/-- **C2, counterexample**: with duplicate titles in the scraped list the
second reconciliation is not a no-op.  Starting from empty storage and
cache, scraping `[("a", 0), ("a", 1)]` and then reconciling the same list
again against the first run's output yields `updatedCount = 2 ≠ 0`. -/
theorem C2_counterexample :
    (reconcile
      (reconcile (fun _ => none) InMemoryCache.empty
        [⟨"a", 0, ""⟩, ⟨"a", 1, ""⟩]).dict
      (reconcile (fun _ => none) InMemoryCache.empty
        [⟨"a", 0, ""⟩, ⟨"a", 1, ""⟩]).cache
      [⟨"a", 0, ""⟩, ⟨"a", 1, ""⟩]).updated ≠ 0 := by
  simp [reconcile, reconcileStep, InMemoryCache.get_price,
    InMemoryCache.update_price, InMemoryCache.empty, Function.update_same]
  norm_num [eps]

/-- **C2 (amended)**: reconciliation is idempotent for scraped lists whose
titles are pairwise distinct: rerunning reconciliation on the first run's
output with the identical scraped list reports `updatedCount = 0`. -/
theorem C2_idempotent (dict0 : String → Option Product)
    (cache0 : InMemoryCache) (S : List Product)
    (hnd : (S.map Product.product_title).Nodup) :
    (reconcile (reconcile dict0 cache0 S).dict
      (reconcile dict0 cache0 S).cache S).updated = 0 := by
  unfold reconcile
  rw [foldl_id_of_close]
  intro p hp
  exact foldl_cache_close_of_nodup S _ hnd p hp

/-- Witness for `C2_idempotent`: two distinct titles. -/
theorem C2_idempotent_witness :
    (([⟨"a", 0, ""⟩, ⟨"b", 1, ""⟩] : List Product).map
      Product.product_title).Nodup ∧
    (reconcile
      (reconcile (fun _ => none) InMemoryCache.empty
        [⟨"a", 0, ""⟩, ⟨"b", 1, ""⟩]).dict
      (reconcile (fun _ => none) InMemoryCache.empty
        [⟨"a", 0, ""⟩, ⟨"b", 1, ""⟩]).cache
      [⟨"a", 0, ""⟩, ⟨"b", 1, ""⟩]).updated = 0 :=
  ⟨by decide,
    C2_idempotent (fun _ => none) InMemoryCache.empty
      [⟨"a", 0, ""⟩, ⟨"b", 1, ""⟩] (by decide)⟩

/-- What one reconciliation step writes at the product's own title
(new dictionary value, new cache value, `updated_count` increment),
as a function of only the pre-state at that title. -/
def stepParts (cp : Option ℚ) (dp : Option Product) (p : Product) :
    Option Product × Option ℚ × ℕ :=
  match cp with
  | some c =>
    if |c - p.product_price| > eps then (some p, some p.product_price, 1)
    else (dp, cp, 0)
  | none =>
    match dp with
    | none => (some p, some p.product_price, 1)
    | some stored =>
      if |stored.product_price - p.product_price| > eps then
        (some p, some p.product_price, 1)
      else (dp, some stored.product_price, 0)

/-- A reconciliation step is exactly an update at the product's own title
by `stepParts` of the pre-state at that title. -/
lemma reconcileStep_eq_parts (s : RecState) (p : Product) :
    reconcileStep s p =
      { dict := Function.update s.dict p.product_title
          (stepParts (s.cache p.product_title) (s.dict p.product_title) p).1,
        cache := Function.update s.cache p.product_title
          (stepParts (s.cache p.product_title) (s.dict p.product_title) p).2.1,
        updated := s.updated +
          (stepParts (s.cache p.product_title) (s.dict p.product_title) p).2.2 } := by
  unfold reconcileStep stepParts InMemoryCache.get_price InMemoryCache.update_price
  cases hC : s.cache p.product_title with
  | some c =>
    by_cases hd : |c - p.product_price| > eps
    · simp [hd]
    · simp only [hd, if_false, stepParts]
      rw [← hC]
      simp [Function.update_eq_self]
  | none =>
    cases hD : s.dict p.product_title with
    | none => simp
    | some stored =>
      by_cases hd : |stored.product_price - p.product_price| > eps
      · simp [hd, Function.update_idem]
      · simp only [hd, if_false, stepParts]
        rw [← hD]
        simp [Function.update_eq_self]

/-- Steps for two products with different titles commute. -/
lemma reconcileStep_comm (s : RecState) (p q : Product)
    (h : p.product_title ≠ q.product_title) :
    reconcileStep (reconcileStep s p) q = reconcileStep (reconcileStep s q) p := by
  have h' : q.product_title ≠ p.product_title := Ne.symm h
  rw [reconcileStep_eq_parts s p, reconcileStep_eq_parts s q,
    reconcileStep_eq_parts _ q, reconcileStep_eq_parts _ p]
  simp only [Function.update_noteq h, Function.update_noteq h',
    RecState.mk.injEq]
  refine ⟨Function.update_comm h _ _ _, Function.update_comm h _ _ _, ?_⟩
  omega

/-- **C3, counterexample**: two single-product pages carrying the same
title `"a"` at prices `0` and `1`.  Both `[("a",0), ("a",1)]` and
`[("a",1), ("a",0)]` are interleavings of the two pages that preserve
within-page order, yet the final merged sets differ at `"a"`. -/
theorem C3_counterexample :
    (reconcile (fun _ => none) InMemoryCache.empty
      [⟨"a", 0, ""⟩, ⟨"a", 1, ""⟩]).dict "a" ≠
    (reconcile (fun _ => none) InMemoryCache.empty
      [⟨"a", 1, ""⟩, ⟨"a", 0, ""⟩]).dict "a" := by
  simp [reconcile, reconcileStep, InMemoryCache.get_price,
    InMemoryCache.update_price, InMemoryCache.empty, Function.update_same]
  norm_num [eps]

/-- **C3 (amended)**: for scraped lists whose titles are pairwise
distinct, reconciliation is invariant under any reordering of the
products (in particular under any interleaving of pages): the merged
set, the cache and `updatedCount` all coincide. -/
theorem C3_order_independent (dict0 : String → Option Product)
    (cache0 : InMemoryCache) (S1 S2 : List Product)
    (hperm : S1.Perm S2) (hnd : (S1.map Product.product_title).Nodup) :
    reconcile dict0 cache0 S1 = reconcile dict0 cache0 S2 := by
  unfold reconcile
  apply List.Perm.foldl_eq' hperm
  intro x hx y hy z
  by_cases hxy : x = y
  · subst hxy; rfl
  · have ht : x.product_title ≠ y.product_title := by
      intro he
      exact hxy (List.inj_on_of_nodup_map hnd hx hy he)
    exact reconcileStep_comm z x y ht

/-- Witness for `C3_order_independent`: the two orderings of two
distinctly-titled products. -/
theorem C3_order_independent_witness :
    (([⟨"a", 0, ""⟩, ⟨"b", 1, ""⟩] : List Product).Perm
      [⟨"b", 1, ""⟩, ⟨"a", 0, ""⟩]) ∧
    (([⟨"a", 0, ""⟩, ⟨"b", 1, ""⟩] : List Product).map
      Product.product_title).Nodup ∧
    reconcile (fun _ => none) InMemoryCache.empty
        [⟨"a", 0, ""⟩, ⟨"b", 1, ""⟩] =
      reconcile (fun _ => none) InMemoryCache.empty
        [⟨"b", 1, ""⟩, ⟨"a", 0, ""⟩] :=
  ⟨List.Perm.swap _ _ _, by decide,
    C3_order_independent (fun _ => none) InMemoryCache.empty
      [⟨"a", 0, ""⟩, ⟨"b", 1, ""⟩] [⟨"b", 1, ""⟩, ⟨"a", 0, ""⟩]
      (List.Perm.swap _ _ _) (by decide)⟩

/-- If attempt `start + k` succeeds and all earlier attempts fail, the
retry loop returns that attempt's products, makes `k + 1` attempts and
sleeps `k` times. -/
lemma retryFrom_success (outcome : ℕ → Except FetchError (List Product))
    (backoff : ℚ) :
    ∀ (k remaining start : ℕ) (ps : List Product), k < remaining →
      outcome (start + k) = Except.ok ps →
      (∀ j < k, ∃ e, outcome (start + j) = Except.error e) →
      retryFrom outcome backoff start remaining =
        ⟨Except.ok ps, k + 1, List.replicate k backoff⟩ := by
  intro k
  induction k with
  | zero =>
    intro remaining start ps hlt hok _
    obtain ⟨r, rfl⟩ := Nat.exists_eq_succ_of_ne_zero (Nat.pos_iff_ne_zero.mp hlt)
    unfold retryFrom
    rw [show start + 0 = start from rfl] at hok
    rw [hok]
    rfl
  | succ k ih =>
    intro remaining start ps hlt hok hbefore
    obtain ⟨r, rfl⟩ := Nat.exists_eq_succ_of_ne_zero
      (Nat.pos_iff_ne_zero.mp (Nat.lt_of_le_of_lt (Nat.zero_le _) hlt))
    obtain ⟨e0, he0⟩ := hbefore 0 (Nat.succ_pos k)
    unfold retryFrom
    rw [show start + 0 = start from rfl] at he0
    rw [he0]
    dsimp only
    have hr : r ≠ 0 := by omega
    rw [if_neg hr]
    have := ih r (start + 1) ps (by omega)
      (by rw [show start + 1 + k = start + (k + 1) from by omega]; exact hok)
      (fun j hj => by
        rw [show start + 1 + j = start + (j + 1) from by omega]
        exact hbefore (j + 1) (by omega))
    rw [this]
    rfl

/-- If every attempt of an `n`-attempt budget fails, the retry loop
re-raises the final attempt's error after `n` attempts and `n - 1`
sleeps. -/
lemma retryFrom_allfail (outcome : ℕ → Except FetchError (List Product))
    (backoff : ℚ) :
    ∀ (n start : ℕ) (e : FetchError), 1 ≤ n →
      (∀ j, j + 1 < n → ∃ e', outcome (start + j) = Except.error e') →
      outcome (start + (n - 1)) = Except.error e →
      retryFrom outcome backoff start n =
        ⟨Except.error e, n, List.replicate (n - 1) backoff⟩ := by
  intro n
  induction n with
  | zero => intro start e h1; omega
  | succ n ih =>
    intro start e _ hall hlast
    by_cases hn : n = 0
    · subst hn
      unfold retryFrom
      rw [show start + (1 - 1) = start from rfl] at hlast
      rw [hlast]
      rfl
    · obtain ⟨e0, he0⟩ := hall 0 (by omega)
      unfold retryFrom
      rw [show start + 0 = start from rfl] at he0
      rw [he0]
      dsimp only
      rw [if_neg hn]
      have := ih (start + 1) e (by omega)
        (fun j hj => by
          rw [show start + 1 + j = start + (j + 1) from by omega]
          exact hall (j + 1) (by omega))
        (by rw [show start + 1 + (n - 1) = start + (n + 1 - 1) from by omega]
            exact hlast)
      rw [this]
      have hrep : List.replicate (n + 1 - 1) backoff =
          backoff :: List.replicate (n - 1) backoff := by
        rw [show n + 1 - 1 = (n - 1) + 1 from by omega]
        rfl
      rw [hrep]

/-- An error result from the retry loop means every attempt failed. -/
lemma retryFrom_error_all (outcome : ℕ → Except FetchError (List Product))
    (backoff : ℚ) :
    ∀ (n start : ℕ) (e : FetchError),
      (retryFrom outcome backoff start n).result = Except.error e →
      ∀ j < n, ∃ e', outcome (start + j) = Except.error e' := by
  intro n
  induction n with
  | zero => intro start e h j hj; omega
  | succ n ih =>
    intro start e h j hj
    revert h
    unfold retryFrom
    cases ho : outcome start with
    | ok ps => intro h; cases h
    | error e0 =>
      by_cases hn : n = 0
      · subst hn
        intro _
        have : j = 0 := by omega
        subst this
        exact ⟨e0, by rw [show start + 0 = start from rfl]; exact ho⟩
      · dsimp only
        rw [if_neg hn]
        intro h
        rcases Nat.eq_zero_or_pos j with rfl | hj0
        · exact ⟨e0, by rw [show start + 0 = start from rfl]; exact ho⟩
        · obtain ⟨j', rfl⟩ := Nat.exists_eq_succ_of_ne_zero (by omega : j ≠ 0)
          have := ih (start + 1) e h j' (by omega)
          rw [show start + 1 + j' = start + (j' + 1) from by omega] at this
          exact this

/-- **C8**: scraping one page makes up to `retry_attempts` attempts.
If the first `k` attempts fail and attempt `k` (0-based) succeeds,
`scrapePage` returns that attempt's products with no error after exactly
`k + 1` attempts and `k` sleeps of `retry_backoff` seconds each; if all
attempts fail, the last attempt's error is propagated after
`retry_attempts` attempts and `retry_attempts - 1` sleeps; and an error
is propagated only when every attempt failed. -/
theorem C8_retry_behavior (outcome : ℕ → Except FetchError (List Product))
    (backoff : ℚ) (attempts : ℕ) (h1 : 1 ≤ attempts) :
    (∀ k ps, k < attempts → outcome k = Except.ok ps →
      (∀ j < k, ∃ e, outcome j = Except.error e) →
      retryPage outcome backoff attempts =
        ⟨Except.ok ps, k + 1, List.replicate k backoff⟩) ∧
    (∀ e, (∀ j, j + 1 < attempts → ∃ e', outcome j = Except.error e') →
      outcome (attempts - 1) = Except.error e →
      retryPage outcome backoff attempts =
        ⟨Except.error e, attempts, List.replicate (attempts - 1) backoff⟩) ∧
    (∀ e, (retryPage outcome backoff attempts).result = Except.error e →
      ∀ j < attempts, ∃ e', outcome j = Except.error e') := by
  refine ⟨?_, ?_, ?_⟩
  · intro k ps hk hok hbefore
    exact retryFrom_success outcome backoff k attempts 0 ps hk
      (by rw [show 0 + k = k from by omega]; exact hok)
      (fun j hj => by
        rw [show 0 + j = j from by omega]; exact hbefore j hj)
  · intro e hall hlast
    exact retryFrom_allfail outcome backoff attempts 0 e h1
      (fun j hj => by rw [show 0 + j = j from by omega]; exact hall j hj)
      (by rw [show 0 + (attempts - 1) = attempts - 1 from by omega]; exact hlast)
  · intro e herr j hj
    have := retryFrom_error_all outcome backoff attempts 0 e herr j hj
    rw [show 0 + j = j from by omega] at this
    exact this

/-- Witness for `C8_retry_behavior`: a 2-attempt budget whose first
attempt fails and second succeeds. -/
theorem C8_retry_behavior_witness :
    (1 ≤ 2) ∧ (1 < 2) ∧
    retryPage (fun j => if j = 0 then Except.error (FetchError.mk "boom")
        else Except.ok ([] : List Product)) 2 2 =
      ⟨Except.ok [], 1 + 1, List.replicate 1 2⟩ :=
  ⟨by decide, by decide,
    (C8_retry_behavior
      (fun j => if j = 0 then Except.error (FetchError.mk "boom")
        else Except.ok ([] : List Product)) 2 2 (by decide)).1 1 []
      (by decide) rfl
      (fun j hj => by
        have hj0 : j = 0 := by omega
        subst hj0
        exact ⟨FetchError.mk "boom", rfl⟩)⟩

/-- If the pages before `p` all scrape successfully and page `p` exhausts
its retries, the page loop propagates page `p`'s error. -/
lemma collectPages_error (attemptOracle : ℕ → ℕ → Except FetchError (List Product))
    (cfg : ScraperConfig) :
    ∀ (l1 : List ℕ) (p : ℕ) (l2 : List ℕ) (e : FetchError),
      (∀ q ∈ l1, ∃ ps, (retryPage (attemptOracle q) cfg.retry_backoff
        cfg.retry_attempts).result = Except.ok ps) →
      (retryPage (attemptOracle p) cfg.retry_backoff
        cfg.retry_attempts).result = Except.error e →
      collectPages attemptOracle cfg (l1 ++ p :: l2) = Except.error e := by
  intro l1
  induction l1 with
  | nil =>
    intro p l2 e _ herr
    rw [List.nil_append]
    unfold collectPages
    rw [herr]
  | cons q rest ih =>
    intro p l2 e hok herr
    obtain ⟨ps, hq⟩ := hok q (List.mem_cons_self q rest)
    rw [List.cons_append]
    unfold collectPages
    rw [hq]
    dsimp only
    rw [ih p l2 e (fun r hr => hok r (List.mem_cons_of_mem q hr)) herr]

/-- **C7**: if any page's scrape fails after its retry budget is
exhausted (and every earlier page succeeded), the whole run aborts with
that page's error: `Scraper.scrape` returns `Except.error`, so no
`RunOutcome` is produced — `storage.save` is never reached and no
notification is sent, leaving the persisted record set unchanged. -/
theorem C7_abort_before_persist
    (attemptOracle : ℕ → ℕ → Except FetchError (List Product))
    (cfg : ScraperConfig) (existing : List Product) (cache0 : InMemoryCache)
    (n p : ℕ) (l1 l2 : List ℕ) (e : FetchError)
    (hlim : cfg.limit_pages = some n)
    (hsplit : List.range' 1 n = l1 ++ p :: l2)
    (hok : ∀ q ∈ l1, ∃ ps, (retryPage (attemptOracle q) cfg.retry_backoff
      cfg.retry_attempts).result = Except.ok ps)
    (herr : (retryPage (attemptOracle p) cfg.retry_backoff
      cfg.retry_attempts).result = Except.error e) :
    Scraper.scrape attemptOracle cfg existing cache0 =
      Except.error (RunError.fetch e) := by
  unfold Scraper.scrape
  rw [hlim]
  dsimp only
  rw [hsplit, collectPages_error attemptOracle cfg l1 p l2 e hok herr]

/-- Witness for `C7_abort_before_persist`: a one-page run whose single
attempt fails. -/
theorem C7_abort_before_persist_witness :
    ((ScraperConfig.mk (some 1) none 1 2).limit_pages = some 1) ∧
    (List.range' 1 1 = [] ++ 1 :: []) ∧
    ((retryPage ((fun _ _ => Except.error (FetchError.mk "down")) 1)
        (ScraperConfig.mk (some 1) none 1 2).retry_backoff
        (ScraperConfig.mk (some 1) none 1 2).retry_attempts).result =
      Except.error (FetchError.mk "down")) ∧
    Scraper.scrape (fun _ _ => Except.error (FetchError.mk "down"))
        (ScraperConfig.mk (some 1) none 1 2) [] InMemoryCache.empty =
      Except.error (RunError.fetch (FetchError.mk "down")) :=
  ⟨rfl, rfl, rfl,
    C7_abort_before_persist (fun _ _ => Except.error (FetchError.mk "down"))
      (ScraperConfig.mk (some 1) none 1 2) [] InMemoryCache.empty
      1 1 [] [] (FetchError.mk "down") rfl rfl
      (fun q hq => absurd hq (List.not_mem_nil q)) rfl⟩

/-- **C10**: with `config.limit_pages = None` (the value the `/scrape`
endpoint produces when called without `page_count`), `Scraper.scrape`
aborts with the `TypeError` raised while computing
`range(1, pages_to_scrape + 1)`.  Storage has already been loaded (it is
the `existing` input), and the result holds for every attempt oracle, so
no page fetch is performed and no persistence or notification happens. -/
theorem C10_none_limit_type_error
    (attemptOracle : ℕ → ℕ → Except FetchError (List Product))
    (cfg : ScraperConfig) (existing : List Product) (cache0 : InMemoryCache)
    (hlim : cfg.limit_pages = none) :
    Scraper.scrape attemptOracle cfg existing cache0 =
      Except.error RunError.typeError := by
  unfold Scraper.scrape
  rw [hlim]

/-- Witness for `C10_none_limit_type_error`. -/
theorem C10_none_limit_type_error_witness :
    ((ScraperConfig.mk none none 3 2).limit_pages = none) ∧
    Scraper.scrape (fun _ _ => Except.ok []) (ScraperConfig.mk none none 3 2)
        [] InMemoryCache.empty = Except.error RunError.typeError :=
  ⟨rfl,
    C10_none_limit_type_error (fun _ _ => Except.ok [])
      (ScraperConfig.mk none none 3 2) [] InMemoryCache.empty rfl⟩

/-- **C9**: extraction is total at its boundary.  If the products
container `mf-shop-content` is absent the result is the empty list (and
no error); whenever the extraction body succeeds the wrapper returns its
list unchanged; and any structural error inside the body degrades to the
empty list for the page instead of propagating (the `except` clause of
`_extract_products_from_html`). -/
theorem C9_extraction_total (root : Html) :
    ((nodeList root).find? (hasId "mf-shop-content") = none →
      extract_products_from_html root = []) ∧
    (∀ l, extractBodyE root = Except.ok l →
      extract_products_from_html root = l) ∧
    (∀ e, extractBodyE root = Except.error e →
      extract_products_from_html root = []) := by
  refine ⟨?_, ?_, ?_⟩
  · intro h
    unfold extract_products_from_html extractBodyE
    rw [h]
  · intro l h
    unfold extract_products_from_html
    rw [h]
  · intro e h
    unfold extract_products_from_html
    rw [h]

/-- Witness for `C9_extraction_total`: a page without the products
container. -/
theorem C9_extraction_total_witness :
    ((nodeList (Html.elem "html" none [] [] [])).find?
      (hasId "mf-shop-content") = none) ∧
    extract_products_from_html (Html.elem "html" none [] [] []) = [] :=
  ⟨rfl, (C9_extraction_total (Html.elem "html" none [] [] [])).1 rfl⟩
